import Mathlib

/-!
# Verification of the SAX-VSM classifier (`pyts/classification/saxvsm.py`)

A shallow embedding of the SAX-VSM time-series classifier.  The single source
file under verification (`src/pyts/classification/saxvsm.py`) composes:

* a symbolic discretizer (`SymbolicAggregateApproximation`, from this project
  but not shipped under `src/`; modelled from the spec, section 4.1),
* a windowed word extractor (`BagOfWords`, also modelled from the spec,
  section 4.2),
* scikit-learn utilities (`check_X_y`, `check_classification_targets`,
  `check_is_fitted`, `LabelEncoder`, `CountVectorizer`, `TfidfVectorizer`,
  `cosine_similarity`), which the spec declares out-of-scope library
  primitives; they are embedded according to their documented contracts.

Conventions of the embedding:

* Real-valued time series and class labels are rationals (`ℚ`); the tf-idf
  and cosine-similarity stage, which involves logarithms and square roots,
  is real-valued (`ℝ`).
* Python exceptions are an `Err` enumeration following the spec's error
  taxonomy (section 7): the `TypeError`/`ValueError` raised for a bad
  `n_bins` or `strategy` are both `InvalidParameter` there.
* A classifier instance is a record of the nine constructor parameters plus
  one `Option` field per attribute that `fit` assigns; `none` models an
  absent Python attribute.  Methods are embedded in state-passing style:
  they return the method result together with the post-state instance.
* The matrix stored in `tfidf_` is kept as its computable core (vocabulary
  and raw per-class term counts, `VSMCore`); the real-valued matrix and idf
  vector are the derived functions `tfidfMatrixR` and `idfVecR`, following
  the documented `TfidfVectorizer` formulas (spec, section 4.3).
-/

/-- A Python numeric scalar: `int` or `float`.  Distinguishes the
`isinstance(self.n_bins, (int, np.integer))` test in `_check_params` and the
int-versus-fraction convention of `window_size`/`window_step`. -/
inductive PyNum where
  | int (n : ℤ)
  | float (q : ℚ)
deriving DecidableEq, Repr

/-- Error taxonomy of the spec (section 7).  `invalidParameter` covers the
`TypeError` and `ValueError` raised for a bad `n_bins` and the `ValueError`
raised for an unknown `strategy`; `attributeError` is Python's
`AttributeError` from reading an attribute that was never assigned;
`emptyVocabulary` is the `ValueError` raised by the vectorizer when fitting
on documents containing no token at all. -/
inductive Err where
  | invalidParameter
  | inconsistentShape
  | invalidTarget
  | notFitted
  | attributeError
  | emptyVocabulary
deriving DecidableEq, Repr

/-- Floor of a rational as an integer (`Int.fdiv` rounds toward `-∞`). -/
def ratFloorZ (q : ℚ) : ℤ := Int.fdiv q.num q.den

/-- Ceiling of a rational as an integer. -/
def ratCeilZ (q : ℚ) : ℤ := -(ratFloorZ (-q))

/-- A SAX word: a short string over the SAX alphabet. -/
abbrev Word := List Char

/-- Strict lexicographic comparison of words (alphabetical vocabulary
order, as used by the scikit-learn vectorizers). -/
def wordLt : Word → Word → Bool
  | [], [] => false
  | [], _ :: _ => true
  | _ :: _, [] => false
  | a :: as, b :: bs => if a < b then true else if b < a then false else wordLt as bs

/-- Insert a word into a sorted duplicate-free word list, keeping it sorted
and duplicate-free. -/
def insertWord (w : Word) : List Word → List Word
  | [] => [w]
  | x :: xs =>
      if wordLt w x then w :: x :: xs
      else if w = x then x :: xs
      else x :: insertWord w xs

/-- The tokens a document contributes: the scikit-learn vectorizers' default
token pattern only keeps words of at least two characters.  (Documents are
kept as word lists; joining them with spaces and re-splitting, as the Python
code does, is the identity on such lists.) -/
def tokensOf (doc : List Word) : List Word := doc.filter (fun w => decide (2 ≤ w.length))

/-- Vocabulary of a document collection: the sorted list of the distinct
tokens of all documents. -/
def buildVocab (docs : List (List Word)) : List Word :=
  ((docs.map tokensOf).flatten).foldl (fun a w => insertWord w a) []

/-- Term-count vector of one document over a fixed vocabulary: entry `j`
counts the occurrences of the `j`-th vocabulary term in the document.
Tokens absent from the vocabulary are counted nowhere. -/
def countRow (vocab : List Word) (doc : List Word) : List ℕ :=
  vocab.map (fun t => (tokensOf doc).countP (fun w => decide (w = t)))

/-- Resolve a `window_size`/`window_step` parameter against a series length:
an `int` is used as is, a `float` fraction `q` becomes `ceil(q * L)`
(spec, section 4.2). -/
def resolveWindow (w : PyNum) (L : ℕ) : ℕ :=
  match w with
  | .int n => n.toNat
  | .float q => (ratCeilZ (q * L)).toNat

/-- Modelled from the spec (section 4.2), `BagOfWords` word extraction:
substrings of length `w` starting at positions `0, s, 2s, …` while the
window fits; `⌊(L−w)/s⌋ + 1` words when `L ≥ w`, none otherwise. -/
def extractWords (w s : ℕ) (sym : List Char) : List Word :=
  if w = 0 ∨ s = 0 ∨ sym.length < w then []
  else (List.range ((sym.length - w) / s + 1)).map (fun i => (sym.drop (i * s)).take w)

/-- Modelled from the spec (section 4.2): numerosity reduction collapses
strictly adjacent duplicate words into one occurrence. -/
def numerosity_reduce : List Word → List Word
  | [] => []
  | [x] => [x]
  | x :: y :: rest =>
      if x = y then numerosity_reduce (y :: rest)
      else x :: numerosity_reduce (y :: rest)

/-- The fitted `BagOfWords` transformer: the parameters it was fitted with. -/
structure BowFitted where
  window_size : PyNum
  window_step : PyNum
  numerosity_reduction : Bool
deriving DecidableEq, Repr

/-- Modelled from the spec (section 4.2): transform one symbolic series into
its word sequence (one document per sample). -/
def bowTransformSample (b : BowFitted) (sym : List Char) : List Word :=
  let w := resolveWindow b.window_size sym.length
  let s := resolveWindow b.window_step sym.length
  let ws := extractWords w s sym
  if b.numerosity_reduction then numerosity_reduce ws else ws

/-- Insert a rational into a sorted duplicate-free list (for `np.unique`,
which `LabelEncoder` uses: sorted distinct labels). -/
def insertQ (v : ℚ) : List ℚ → List ℚ
  | [] => [v]
  | x :: xs =>
      if v < x then v :: x :: xs
      else if v = x then x :: xs
      else x :: insertQ v xs

/-- `LabelEncoder.fit`: the sorted distinct labels (`classes_`). -/
def labelClasses (y : List ℚ) : List ℚ := y.foldl (fun a v => insertQ v a) []

/-- `LabelEncoder.transform` of one label: its index in `classes_`. -/
def labelIndex (cls : List ℚ) (v : ℚ) : ℕ := cls.findIdx (fun x => decide (x = v))

/-- The per-class document: concatenation, in sample order, of the word
documents of all samples carrying class index `c` (line 131 of the source:
`' '.join(X_bow[y_ind == classe])`). -/
def classDoc (docs : List (List Word)) (yInd : List ℕ) (c : ℕ) : List Word :=
  ((docs.zip yInd).filterMap (fun p => if p.2 = c then some p.1 else none)).flatten

/-- scikit-learn `check_X_y`, embedded by the contract the spec assigns it
(sections 4.4 and 6): X and y must have the same number of samples. -/
def check_X_y (X : List (List ℚ)) (y : List ℚ) : Except Err Unit :=
  if X.length = y.length then .ok () else .error .inconsistentShape

/-- scikit-learn `check_classification_targets`, embedded by its documented
contract: it rejects continuous (non-integral real) targets and accepts any
discrete label vector — it does not require two distinct classes. -/
def check_classification_targets (y : List ℚ) : Except Err Unit :=
  if y.all (fun v => decide (v.den = 1)) then .ok () else .error .invalidTarget

/-- The three binning strategies the discretizer accepts (spec, 4.1). -/
def strategyValid (s : String) : Bool :=
  s = "uniform" || s = "quantile" || s = "normal"

/-- The fitted symbolic discretizer: its validated parameters. -/
structure SaxFitted where
  n_bins : ℤ
  strategy : String
  alphabet : Option (List Char)
deriving DecidableEq, Repr

/-- The discretizer's alphabet: the explicit one if given, else the first
`n_bins` letters of the Latin alphabet (spec, section 4.1). -/
def saxAlphabet (f : SaxFitted) : List Char :=
  f.alphabet.getD ((List.range f.n_bins.toNat).map (fun i => Char.ofNat (97 + i)))

/-- Minimum of a rational sample (0 for an empty sample, which is never
discretized). -/
def listMinQ : List ℚ → ℚ
  | [] => 0
  | x :: xs => xs.foldl min x

/-- Maximum of a rational sample. -/
def listMaxQ : List ℚ → ℚ
  | [] => 0
  | x :: xs => xs.foldl max x

/-- Insertion into a sorted list, duplicates kept (for empirical quantiles). -/
def insertQle (v : ℚ) : List ℚ → List ℚ
  | [] => [v]
  | x :: xs => if v ≤ x then v :: x :: xs else x :: insertQle v xs

/-- Sort a rational sample, keeping duplicates. -/
def sortQ (l : List ℚ) : List ℚ := l.foldr insertQle []

/-- Empirical quantile of a sorted sample at probability `p`, with the
linear-interpolation convention (`numpy.quantile`): index `h = p·(m−1)`,
interpolating between the neighbouring order statistics. -/
def quantileLin (sorted : List ℚ) (p : ℚ) : ℚ :=
  match sorted with
  | [] => 0
  | _ :: _ =>
      let m := sorted.length
      let h : ℚ := p * ((m : ℚ) - 1)
      let i := (ratFloorZ h).toNat
      let a := sorted.getD i 0
      let b := sorted.getD (i + 1) a
      a + (h - (i : ℚ)) * (b - a)

/-- Modelled from the spec (section 4.1), `uniform` strategy: `n − 1` bin
edges evenly spaced between the per-sample minimum and maximum. -/
def uniformEdges (n : ℕ) (vals : List ℚ) : List ℚ :=
  (List.range (n - 1)).map
    (fun k => listMinQ vals + (listMaxQ vals - listMinQ vals) * ((k : ℚ) + 1) / (n : ℚ))

/-- Modelled from the spec (section 4.1), `quantile` strategy: bin edges are
the empirical quantiles of the sample at `k/n`, `k = 1, …, n−1`. -/
def quantileEdges (n : ℕ) (vals : List ℚ) : List ℚ :=
  (List.range (n - 1)).map (fun k => quantileLin (sortQ vals) (((k : ℚ) + 1) / (n : ℚ)))

/-- Bin index of a value against a list of edges: the number of edges not
exceeding it (values at or above the top edge land in the last bin). -/
def binCountQ (edges : List ℚ) (v : ℚ) : ℕ :=
  edges.countP (fun e => decide (e ≤ v))

noncomputable section

/-- Modelled from the spec (section 4.1), `normal` strategy: the quantile
function of the standard normal distribution, as the generalized inverse of
its cumulative distribution function.  (The original code calls
`scipy.stats.norm.ppf`; this is its exact real-valued meaning.) -/
def stdNormalQuantile (p : ℝ) : ℝ :=
  sInf {x : ℝ | p ≤ ((ProbabilityTheory.gaussianReal 0 1) (Set.Iic x)).toReal}

/-- Bin index of a value against the fixed standard-normal edges. -/
def binCountNormal (n : ℕ) (v : ℚ) : ℕ :=
  ((List.range (n - 1)).map (fun k => stdNormalQuantile (((k : ℝ) + 1) / (n : ℝ)))).countP
    (fun e => decide (e ≤ (v : ℝ)))

/-- Modelled from the spec (section 4.1): discretize one sample into a
symbolic string, one character per timestamp, via the strategy's bin edges.
Callers guarantee the strategy is one of the three valid names. -/
def discretizeSample (f : SaxFitted) (vals : List ℚ) : List Char :=
  let alpha := saxAlphabet f
  let n := f.n_bins.toNat
  if f.strategy = "uniform" then
    vals.map (fun v => alpha.getD (binCountQ (uniformEdges n vals) v) 'a')
  else if f.strategy = "quantile" then
    vals.map (fun v => alpha.getD (binCountQ (quantileEdges n vals) v) 'a')
  else
    vals.map (fun v => alpha.getD (binCountNormal n v) 'a')

/-- The discretizer's `transform`: per-sample discretization; an unknown
strategy in the fitted state is rejected as an invalid parameter. -/
def saxTransform (f : SaxFitted) (X : List (List ℚ)) : Except Err (List (List Char)) :=
  if strategyValid f.strategy then .ok (X.map (discretizeSample f))
  else .error .invalidParameter

end

/-- The computable core of the fitted vector space model: the vocabulary,
the raw per-class term counts, and the weighting flags the vectorizer was
configured with.  `tfidfMatrixR` and `idfVecR` interpret it as the real
matrix and idf vector that scikit-learn's `TfidfVectorizer` stores. -/
structure VSMCore where
  vocab : List Word
  counts : List (List ℕ)
  use_idf : Bool
  smooth_idf : Bool
  sublinear_tf : Bool
deriving DecidableEq, Repr

/-- `TfidfVectorizer.fit_transform` on the per-class documents, embedded by
its documented contract (spec, section 4.3): build the sorted vocabulary of
all distinct tokens and the raw count matrix; an entirely empty token set is
a `ValueError` (`empty vocabulary`). -/
def tfidfFit (useI smoothI subl : Bool) (docs : List (List Word)) : Except Err VSMCore :=
  let vocab := buildVocab docs
  if vocab.isEmpty then .error .emptyVocabulary
  else .ok ⟨vocab, docs.map (countRow vocab), useI, smoothI, subl⟩

/-- Document frequency of vocabulary term `j`: the number of class documents
containing it at least once. -/
def dfCount (counts : List (List ℕ)) (j : ℕ) : ℕ :=
  counts.countP (fun row => decide (0 < row.getD j 0))

noncomputable section

/-- Sublinear term-frequency transform (`sublinear_tf`): `1 + log tf` on
nonzero counts, zero counts stay zero (spec, section 4.3, step 4). -/
def tfTerm (subl : Bool) (c : ℕ) : ℝ :=
  if subl then (if c = 0 then 0 else 1 + Real.log c) else c

/-- Inverse document frequency (spec, section 4.3, step 5):
`log((1+n)/(1+df)) + 1` when smoothed, `log(n/df) + 1` otherwise. -/
def idfTerm (smooth : Bool) (n df : ℕ) : ℝ :=
  if smooth then Real.log ((1 + (n : ℝ)) / (1 + (df : ℝ))) + 1
  else Real.log ((n : ℝ) / (df : ℝ)) + 1

/-- The real tf-idf matrix the fitted vectorizer stores (`norm=None`, so the
rows are not normalized): entry `(c, j)` is the transformed term frequency,
multiplied by the idf weight when `use_idf` is set. -/
def tfidfMatrixR (core : VSMCore) : List (List ℝ) :=
  core.counts.map (fun row =>
    (List.range core.vocab.length).map (fun j =>
      tfTerm core.sublinear_tf (row.getD j 0) *
        (if core.use_idf then idfTerm core.smooth_idf core.counts.length (dfCount core.counts j)
         else 1)))

/-- The learned idf vector (`TfidfVectorizer.idf_`), one weight per
vocabulary term. -/
def idfVecR (core : VSMCore) : List ℝ :=
  (List.range core.vocab.length).map
    (fun j => idfTerm core.smooth_idf core.counts.length (dfCount core.counts j))

/-- Dot product of two real vectors (trailing entries of the longer vector
are ignored, as with equal-length rows). -/
def dotList : List ℝ → List ℝ → ℝ
  | a :: u, b :: v => a * b + dotList u v
  | _, _ => 0

/-- Euclidean norm of a real vector. -/
def l2norm (u : List ℝ) : ℝ := Real.sqrt (dotList u u)

/-- scikit-learn `cosine_similarity` of two rows: the dot product over the
product of the norms, where a zero norm is replaced by `1` (`normalize`
leaves zero rows zero), so a zero vector has similarity `0` to anything. -/
def cosineSim (u v : List ℝ) : ℝ :=
  dotList u v /
    ((if l2norm u = 0 then 1 else l2norm u) * (if l2norm v = 0 then 1 else l2norm v))

/-- The similarity matrix `decision_function` returns: one row per test
document, holding the cosine similarity of its term-count vector (over the
fit-time vocabulary) with each class's tf-idf row. -/
def simMatrix (core : VSMCore) (vocab : List Word) (docs : List (List Word)) :
    List (List ℝ) :=
  docs.map (fun doc =>
    (tfidfMatrixR core).map
      (fun trow => cosineSim ((countRow vocab doc).map (fun c : ℕ => (c : ℝ))) trow))

/-- `numpy.argmax` over a row: the index of the first occurrence of the
maximum value (0 on an empty row, which numpy rejects but which never
reaches it here). -/
def firstArgmax : List ℝ → ℕ
  | [] => 0
  | x :: xs => if xs.foldr max x ≤ x then 0 else firstArgmax xs + 1

end

/-- The classifier instance: the nine constructor parameters (stored
verbatim by `__init__`, lines 87–98) and one `Option` field per attribute
`fit` assigns (lines 121 and 138–147); `none` is an absent attribute. -/
structure SAXVSM where
  n_bins : PyNum
  strategy : String
  alphabet : Option (List Char)
  window_size : PyNum
  window_step : PyNum
  numerosity_reduction : Bool
  use_idf : Bool
  smooth_idf : Bool
  sublinear_tf : Bool
  classes_ : Option (List ℚ)
  tfidf_ : Option VSMCore
  vocabulary_ : Option (List Word)
  idf_ : Option (Option VSMCore)
  _tfidf : Option (List Word)
  _sax : Option SaxFitted
  _bow : Option BowFitted
deriving DecidableEq

deriving instance DecidableEq for Except

namespace SAXVSM

/-- `SAXVSM.__init__` (lines 87–98): store the configuration, validate
nothing, assign no fitted attribute. -/
def init (n_bins : PyNum) (strategy : String) (alphabet : Option (List Char))
    (window_size window_step : PyNum) (numerosity_reduction use_idf smooth_idf
    sublinear_tf : Bool) : SAXVSM :=
  ⟨n_bins, strategy, alphabet, window_size, window_step, numerosity_reduction,
   use_idf, smooth_idf, sublinear_tf, none, none, none, none, none, none, none⟩

/-- `SAXVSM._check_params` (lines 188–192): `TypeError` if `n_bins` is not
an integer, `ValueError` if it is outside `[2, 26]` — both
`InvalidParameter` in the spec's taxonomy. -/
def _check_params (m : SAXVSM) : Except Err Unit :=
  match m.n_bins with
  | .float _ => .error .invalidParameter
  | .int n => if 2 ≤ n ∧ n ≤ 26 then .ok () else .error .invalidParameter

/-- The `n_bins` validity predicate of `_check_params`, as a Boolean. -/
def nBinsValid : PyNum → Bool
  | .float _ => false
  | .int n => decide (2 ≤ n ∧ n ≤ 26)

/-- scikit-learn `check_is_fitted(self, ['vocabulary_', 'tfidf_', 'idf_',
'_tfidf', 'classes_'])` (lines 164–165): all five attributes must be
present. -/
def isFitted (m : SAXVSM) : Bool :=
  m.vocabulary_.isSome && m.tfidf_.isSome && m.idf_.isSome &&
    m._tfidf.isSome && m.classes_.isSome

noncomputable section

/-- The discretizer's `fit_transform` as invoked on lines 124–126: validate
`n_bins` (as `_check_params` already did) and `strategy`, then discretize
every sample; returns the fitted discretizer and the symbolic series. -/
def saxFitTransform (m : SAXVSM) (X : List (List ℚ)) :
    Except Err (SaxFitted × List (List Char)) :=
  match m.n_bins with
  | .float _ => .error .invalidParameter
  | .int n =>
      if 2 ≤ n ∧ n ≤ 26 then
        if strategyValid m.strategy then
          .ok (⟨n, m.strategy, m.alphabet⟩,
            X.map (discretizeSample ⟨n, m.strategy, m.alphabet⟩))
        else .error .invalidParameter
      else .error .invalidParameter

/-- `SAXVSM.fit` (lines 100–148), in state-passing style: the first
component is the method result (`.ok ()` stands for `return self`), the
second the post-state.  Attributes are assigned exactly where the Python
code assigns them: `classes_` on line 121, before the discretization can
fail; everything else after the last fallible step (lines 138–147). -/
def fit (m : SAXVSM) (X : List (List ℚ)) (y : List ℚ) :
    Except Err Unit × SAXVSM :=
  match check_X_y X y with
  | .error e => (.error e, m)
  | .ok _ =>
    match _check_params m with
    | .error e => (.error e, m)
    | .ok _ =>
      match check_classification_targets y with
      | .error e => (.error e, m)
      | .ok _ =>
        let cls := labelClasses y
        let yInd := y.map (labelIndex cls)
        let m1 := { m with classes_ := some cls }
        match saxFitTransform m X with
        | .error e => (.error e, m1)
        | .ok (saxF, Xsax) =>
          let bowF : BowFitted := ⟨m.window_size, m.window_step, m.numerosity_reduction⟩
          let Xbow := Xsax.map (bowTransformSample bowF)
          let Xclass := (List.range cls.length).map (classDoc Xbow yInd)
          match tfidfFit m.use_idf m.smooth_idf m.sublinear_tf Xclass with
          | .error e => (.error e, m1)
          | .ok core =>
            (.ok (), { m1 with
              tfidf_ := some core,
              vocabulary_ := some core.vocab,
              idf_ := some (if m.use_idf then some core else none),
              _tfidf := some core.vocab,
              _sax := some saxF,
              _bow := some bowF })

/-- `SAXVSM.decision_function` (lines 150–170): `check_is_fitted`, then
re-run the fitted discretizer and word extractor on `X`, count the fit-time
vocabulary terms in each document, and return the cosine similarities
against the stored tf-idf rows. -/
def decision_function (m : SAXVSM) (X : List (List ℚ)) :
    Except Err (List (List ℝ)) :=
  if isFitted m then
    match m._sax, m._bow, m._tfidf, m.tfidf_ with
    | some saxF, some bowF, some vocab, some core =>
        match saxTransform saxF X with
        | .error e => .error e
        | .ok Xsax => .ok (simMatrix core vocab (Xsax.map (bowTransformSample bowF)))
    | _, _, _, _ => .error .attributeError
  else .error .notFitted

/-- `SAXVSM.predict` (line 186):
`self.classes_[self.decision_function(X).argmax(axis=1)]`.  Python
evaluates the subscripted primary `self.classes_` before the index
expression, so a missing `classes_` raises `AttributeError` before
`decision_function` is ever entered. -/
def predict (m : SAXVSM) (X : List (List ℚ)) : Except Err (List ℚ) :=
  match m.classes_ with
  | none => .error .attributeError
  | some cls =>
      match decision_function m X with
      | .error e => .error e
      | .ok M => .ok (M.map (fun row => cls.getD (firstArgmax row) 0))

/-- `decision_function` as a state transformer: its body (lines 164–170)
contains no attribute assignment, so the post-state is the receiver. -/
def decision_functionS (m : SAXVSM) (X : List (List ℚ)) :
    Except Err (List (List ℝ)) × SAXVSM :=
  (decision_function m X, m)

/-- `predict` as a state transformer: its body (line 186) contains no
attribute assignment, so the post-state is the receiver. -/
def predictS (m : SAXVSM) (X : List (List ℚ)) :
    Except Err (List ℚ) × SAXVSM :=
  (predict m X, m)

end

end SAXVSM

/-! ## Concrete instances used to exercise the theorems

A two-sample, two-class training set under the default-style configuration
`n_bins=2, strategy='uniform', window_size=2, window_step=1`,
`numerosity_reduction=True, use_idf=True, smooth_idf=False,
sublinear_tf=True`, worked through the pipeline by hand:
`[0,1,2,3] ↦ "aabb" ↦ {aa, ab, bb}` and `[3,2,1,0] ↦ "bbaa" ↦ {bb, ba, aa}`. -/

/-- A freshly constructed classifier (no fitted attribute present). -/
def inst0 : SAXVSM :=
  SAXVSM.init (.int 2) "uniform" none (.int 2) (.int 1) true true false true

/-- The training matrix: two samples, four timestamps. -/
def X0 : List (List ℚ) := [[0, 1, 2, 3], [3, 2, 1, 0]]

/-- Two distinct training labels. -/
def y0 : List ℚ := [0, 1]

/-- A degenerate label vector: two samples, a single distinct class. -/
def y1 : List ℚ := [0, 0]

/-- The fitted vocabulary of `X0`: all four two-letter words occur. -/
def vocab0 : List Word := [['a', 'a'], ['a', 'b'], ['b', 'a'], ['b', 'b']]

/-- The fitted core for `(X0, y0)`: per-class counts of `vocab0`. -/
def core0 : VSMCore := ⟨vocab0, [[1, 1, 0, 1], [1, 0, 1, 1]], true, false, true⟩

/-- The fitted core for the single-class training set `(X0, y1)`. -/
def core1 : VSMCore := ⟨vocab0, [[2, 1, 1, 2]], true, false, true⟩

/-- The fitted discretizer of `inst0`. -/
def sax0 : SaxFitted := ⟨2, "uniform", none⟩

/-- The fitted word extractor of `inst0`. -/
def bow0 : BowFitted := ⟨.int 2, .int 1, true⟩

/-- The instance state after `inst0.fit X0 y0`. -/
def m0 : SAXVSM :=
  ⟨.int 2, "uniform", none, .int 2, .int 1, true, true, false, true,
   some [0, 1], some core0, some vocab0, some (some core0), some vocab0,
   some sax0, some bow0⟩

/-- The instance state after `inst0.fit X0 y1` (single-class fit). -/
def m1 : SAXVSM :=
  ⟨.int 2, "uniform", none, .int 2, .int 1, true, true, false, true,
   some [0], some core1, some vocab0, some (some core1), some vocab0,
   some sax0, some bow0⟩

/-- A one-timestamp test input: too short for the window, so its document
is empty and every similarity is zero. -/
def Xt : List (List ℚ) := [[7]]

/-- A classifier constructed with the invalid `n_bins = 1`. -/
def instBad : SAXVSM :=
  SAXVSM.init (.int 1) "uniform" none (.int 2) (.int 1) true true false true

/-- A classifier constructed with the invalid `n_bins = 27`. -/
def instBad27 : SAXVSM :=
  SAXVSM.init (.int 27) "uniform" none (.int 2) (.int 1) true true false true

/-! ## General lemmas: dot products, norms, cosine similarity -/

theorem dotList_cons (a b : ℝ) (u v : List ℝ) :
    dotList (a :: u) (b :: v) = a * b + dotList u v := rfl

theorem dotList_nil_left (v : List ℝ) : dotList [] v = 0 := by cases v <;> rfl

theorem dotList_nil_right (u : List ℝ) : dotList u [] = 0 := by cases u <;> rfl

theorem dotList_self_nonneg (u : List ℝ) : 0 ≤ dotList u u := by
  induction u with
  | nil => simp [dotList_nil_left]
  | cons a u ih => rw [dotList_cons]; exact add_nonneg (mul_self_nonneg a) ih

theorem dotList_eq_sum (u v : List ℝ) :
    dotList u v = ∑ i ∈ Finset.range (min u.length v.length), u.getD i 0 * v.getD i 0 := by
  induction u generalizing v with
  | nil => simp [dotList_nil_left]
  | cons a u ih =>
      cases v with
      | nil => simp [dotList_nil_right]
      | cons b v =>
          rw [dotList_cons, ih v]
          simp only [List.length_cons, Nat.succ_min_succ, Finset.sum_range_succ',
            List.getD_cons_succ, List.getD_cons_zero]
          ring

theorem dotList_sq_le (u v : List ℝ) :
    (dotList u v) ^ 2 ≤ dotList u u * dotList v v := by
  rw [dotList_eq_sum u v, dotList_eq_sum u u, dotList_eq_sum v v, min_self, min_self]
  have hcs := Finset.sum_mul_sq_le_sq_mul_sq (Finset.range (min u.length v.length))
    (fun i => u.getD i 0) (fun i => v.getD i 0)
  have e1 : ∀ (w : List ℝ) (s : Finset ℕ),
      (∑ i ∈ s, w.getD i 0 ^ 2) = ∑ i ∈ s, w.getD i 0 * w.getD i 0 :=
    fun w s => Finset.sum_congr rfl (fun i _ => pow_two _)
  refine le_trans hcs ?_
  rw [e1, e1]
  exact mul_le_mul
    (Finset.sum_le_sum_of_subset_of_nonneg
      (Finset.range_subset.mpr (min_le_left _ _)) (fun i _ _ => mul_self_nonneg _))
    (Finset.sum_le_sum_of_subset_of_nonneg
      (Finset.range_subset.mpr (min_le_right _ _)) (fun i _ _ => mul_self_nonneg _))
    (Finset.sum_nonneg (fun i _ => mul_self_nonneg _))
    (Finset.sum_nonneg (fun i _ => mul_self_nonneg _))

theorem l2norm_nonneg (u : List ℝ) : 0 ≤ l2norm u := Real.sqrt_nonneg _

theorem abs_dotList_le (u v : List ℝ) : |dotList u v| ≤ l2norm u * l2norm v := by
  have h := dotList_sq_le u v
  calc |dotList u v| = Real.sqrt ((dotList u v) ^ 2) := (Real.sqrt_sq_eq_abs _).symm
    _ ≤ Real.sqrt (dotList u u * dotList v v) := Real.sqrt_le_sqrt h
    _ = l2norm u * l2norm v := Real.sqrt_mul (dotList_self_nonneg u) _

theorem dotList_eq_zero_left (u v : List ℝ) (h : l2norm u = 0) : dotList u v = 0 := by
  have hb := abs_dotList_le u v
  rw [h, zero_mul] at hb
  exact abs_nonpos_iff.mp hb

theorem dotList_eq_zero_right (u v : List ℝ) (h : l2norm v = 0) : dotList u v = 0 := by
  have hb := abs_dotList_le u v
  rw [h, mul_zero] at hb
  exact abs_nonpos_iff.mp hb

theorem abs_cosineSim_le_one (u v : List ℝ) : |cosineSim u v| ≤ 1 := by
  unfold cosineSim
  by_cases hu : l2norm u = 0
  · rw [dotList_eq_zero_left u v hu, zero_div, abs_zero]; exact zero_le_one
  · by_cases hv : l2norm v = 0
    · rw [dotList_eq_zero_right u v hv, zero_div, abs_zero]; exact zero_le_one
    · rw [if_neg hu, if_neg hv]
      have hupos : 0 < l2norm u := lt_of_le_of_ne (l2norm_nonneg u) (Ne.symm hu)
      have hvpos : 0 < l2norm v := lt_of_le_of_ne (l2norm_nonneg v) (Ne.symm hv)
      have hdpos : 0 < l2norm u * l2norm v := mul_pos hupos hvpos
      rw [abs_div, abs_of_pos hdpos]
      exact (div_le_one hdpos).mpr (abs_dotList_le u v)

theorem cosineSim_mem_Icc (u v : List ℝ) :
    -1 ≤ cosineSim u v ∧ cosineSim u v ≤ 1 :=
  abs_le.mp (abs_cosineSim_le_one u v)

theorem dotList_zero_left (u v : List ℝ) (h : ∀ x ∈ u, x = 0) : dotList u v = 0 := by
  induction u generalizing v with
  | nil => exact dotList_nil_left v
  | cons a u ih =>
      cases v with
      | nil => exact dotList_nil_right _
      | cons b v =>
          rw [dotList_cons, h a (List.mem_cons_self a u), zero_mul,
            ih v (fun x hx => h x (List.mem_cons_of_mem a hx)), add_zero]

theorem cosineSim_zeroList (u v : List ℝ) (h : ∀ x ∈ u, x = 0) : cosineSim u v = 0 := by
  unfold cosineSim
  rw [dotList_zero_left u v h, zero_div]

/-! ## General lemmas: first-occurrence argmax -/

theorem le_foldr_max (a : ℝ) (l : List ℝ) : a ≤ l.foldr max a := by
  induction l with
  | nil => exact le_refl a
  | cons x xs ih => exact le_trans ih (le_max_right x _)

theorem mem_le_foldr_max (a t : ℝ) (l : List ℝ) (h : t ∈ l) : t ≤ l.foldr max a := by
  induction l with
  | nil => cases h
  | cons x xs ih =>
      rcases List.mem_cons.mp h with rfl | hmem
      · exact le_max_left t _
      · exact le_trans (ih hmem) (le_max_right x _)

theorem foldr_max_le (a c : ℝ) (l : List ℝ) (ha : a ≤ c) (h : ∀ t ∈ l, t ≤ c) :
    l.foldr max a ≤ c := by
  induction l with
  | nil => exact ha
  | cons x xs ih =>
      exact max_le (h x (List.mem_cons_self x xs))
        (ih (fun t ht => h t (List.mem_cons_of_mem x ht)))

theorem firstArgmax_spec (l : List ℝ) (hl : l ≠ []) :
    firstArgmax l < l.length ∧
    (∀ k < l.length, l.getD k 0 ≤ l.getD (firstArgmax l) 0) ∧
    (∀ k < firstArgmax l, l.getD k 0 < l.getD (firstArgmax l) 0) := by
  induction l with
  | nil => exact absurd rfl hl
  | cons x xs ih =>
      by_cases hx : xs.foldr max x ≤ x
      · rw [show firstArgmax (x :: xs) = 0 from by rw [firstArgmax, if_pos hx]]
        refine ⟨Nat.succ_pos _, ?_, ?_⟩
        · intro k hk
          cases k with
          | zero => exact le_refl _
          | succ k =>
              rw [List.getD_cons_succ, List.getD_cons_zero]
              have hmem : xs.getD k 0 ∈ xs := by
                rw [List.getD_eq_getElem xs 0 (Nat.lt_of_succ_lt_succ hk)]
                exact List.getElem_mem _
              exact le_trans (mem_le_foldr_max x _ xs hmem) hx
        · intro k hk
          exact absurd hk (Nat.not_lt_zero k)
      · rw [show firstArgmax (x :: xs) = firstArgmax xs + 1 from by
          rw [firstArgmax, if_neg hx]]
        have hxs : xs ≠ [] := by
          intro h
          subst h
          exact hx (le_refl x)
        obtain ⟨ih1, ih2, ih3⟩ := ih hxs
        push_neg at hx
        have hc : x < xs.getD (firstArgmax xs) 0 := by
          have hle : xs.foldr max x ≤ max x (xs.getD (firstArgmax xs) 0) := by
            refine foldr_max_le _ _ _ (le_max_left _ _) (fun t ht => ?_)
            obtain ⟨k, hk, rfl⟩ := List.mem_iff_getElem.mp ht
            rw [← List.getD_eq_getElem xs 0 hk]
            exact le_trans (ih2 k hk) (le_max_right _ _)
          have hlt := lt_of_lt_of_le hx hle
          rcases le_or_lt (xs.getD (firstArgmax xs) 0) x with h' | h'
          · rw [max_eq_left h'] at hlt
            exact absurd hlt (lt_irrefl x)
          · exact h'
        refine ⟨Nat.succ_lt_succ ih1, ?_, ?_⟩
        · intro k hk
          cases k with
          | zero =>
              rw [List.getD_cons_zero, List.getD_cons_succ]
              exact le_of_lt hc
          | succ k =>
              rw [List.getD_cons_succ, List.getD_cons_succ]
              exact ih2 k (Nat.lt_of_succ_lt_succ hk)
        · intro k hk
          cases k with
          | zero =>
              rw [List.getD_cons_zero, List.getD_cons_succ]
              exact hc
          | succ k =>
              rw [List.getD_cons_succ, List.getD_cons_succ]
              exact ih3 k (Nat.lt_of_succ_lt_succ hk)

/-! ## General lemmas: the lexicographic word order and sorted insertion -/

theorem wordLt_irrefl (a : Word) : wordLt a a = false := by
  induction a with
  | nil => rfl
  | cons x xs ih => rw [wordLt, if_neg (lt_irrefl x), if_neg (lt_irrefl x)]; exact ih

theorem wordLt_trans (a : Word) : ∀ b c : Word,
    wordLt a b = true → wordLt b c = true → wordLt a c = true := by
  induction a with
  | nil =>
      intro b c hab hbc
      cases b with
      | nil => cases hab
      | cons xb bs =>
          cases c with
          | nil => cases hbc
          | cons xc cs => rfl
  | cons xa as ih =>
      intro b c hab hbc
      cases b with
      | nil => cases hab
      | cons xb bs =>
          cases c with
          | nil => cases hbc
          | cons xc cs =>
              rw [wordLt] at hab hbc ⊢
              by_cases h1 : xa < xb
              · by_cases h2 : xb < xc
                · rw [if_pos (lt_trans h1 h2)]
                · rw [if_neg h2] at hbc
                  by_cases h3 : xc < xb
                  · rw [if_pos h3] at hbc
                    cases hbc
                  · rw [if_neg h3] at hbc
                    have : xb = xc := le_antisymm (le_of_not_lt h3) (le_of_not_lt h2)
                    subst this
                    rw [if_pos h1]
              · rw [if_neg h1] at hab
                by_cases h4 : xb < xa
                · rw [if_pos h4] at hab
                  cases hab
                · rw [if_neg h4] at hab
                  have : xa = xb := le_antisymm (le_of_not_lt h4) (le_of_not_lt h1)
                  subst this
                  by_cases h2 : xa < xc
                  · rw [if_pos h2]
                  · rw [if_neg h2] at hbc ⊢
                    by_cases h3 : xc < xa
                    · rw [if_pos h3] at hbc
                      cases hbc
                    · rw [if_neg h3] at hbc ⊢
                      exact ih bs cs hab hbc

theorem wordLt_total (a : Word) : ∀ b : Word,
    a ≠ b → wordLt a b = true ∨ wordLt b a = true := by
  induction a with
  | nil =>
      intro b hne
      cases b with
      | nil => exact absurd rfl hne
      | cons xb bs => exact Or.inl rfl
  | cons xa as ih =>
      intro b hne
      cases b with
      | nil => exact Or.inr rfl
      | cons xb bs =>
          rcases lt_trichotomy xa xb with h | h | h
          · exact Or.inl (by rw [wordLt, if_pos h])
          · subst h
            have hne' : as ≠ bs := fun h => hne (by rw [h])
            rcases ih bs hne' with h' | h'
            · exact Or.inl (by rw [wordLt, if_neg (lt_irrefl xa), if_neg (lt_irrefl xa)]; exact h')
            · exact Or.inr (by rw [wordLt, if_neg (lt_irrefl xa), if_neg (lt_irrefl xa)]; exact h')
          · exact Or.inr (by rw [wordLt, if_pos h])

theorem mem_insertWord (w t : Word) (l : List Word) (h : t ∈ insertWord w l) :
    t = w ∨ t ∈ l := by
  induction l with
  | nil =>
      rw [insertWord] at h
      rcases List.mem_cons.mp h with rfl | h'
      · exact Or.inl rfl
      · cases h'
  | cons x xs ih =>
      rw [insertWord] at h
      by_cases h1 : wordLt w x = true
      · rw [if_pos h1] at h
        rcases List.mem_cons.mp h with rfl | h'
        · exact Or.inl rfl
        · exact Or.inr h'
      · rw [if_neg h1] at h
        by_cases h2 : w = x
        · rw [if_pos h2] at h
          exact Or.inr h
        · rw [if_neg h2] at h
          rcases List.mem_cons.mp h with rfl | h'
          · exact Or.inr (List.mem_cons_self _ _)
          · rcases ih h' with h'' | h''
            · exact Or.inl h''
            · exact Or.inr (List.mem_cons_of_mem x h'')

theorem pairwise_insertWord (w : Word) (l : List Word)
    (h : List.Pairwise (fun a b => wordLt a b = true) l) :
    List.Pairwise (fun a b => wordLt a b = true) (insertWord w l) := by
  induction l with
  | nil => simp [insertWord]
  | cons x xs ih =>
      rw [insertWord]
      rcases List.pairwise_cons.mp h with ⟨hx, hxs⟩
      by_cases h1 : wordLt w x = true
      · rw [if_pos h1]
        refine List.pairwise_cons.mpr ⟨?_, h⟩
        intro t ht
        rcases List.mem_cons.mp ht with rfl | ht'
        · exact h1
        · exact wordLt_trans w x t h1 (hx t ht')
      · rw [if_neg h1]
        by_cases h2 : w = x
        · rw [if_pos h2]
          exact h
        · rw [if_neg h2]
          refine List.pairwise_cons.mpr ⟨?_, ih hxs⟩
          intro t ht
          rcases mem_insertWord w t xs ht with rfl | ht'
          · rcases wordLt_total t x (fun h => h2 h) with h' | h'
            · exact absurd h' h1
            · exact h'
          · exact hx t ht'

theorem pairwise_foldl_insertWord (ws : List Word) (acc : List Word)
    (h : List.Pairwise (fun a b => wordLt a b = true) acc) :
    List.Pairwise (fun a b => wordLt a b = true)
      (ws.foldl (fun a w => insertWord w a) acc) := by
  induction ws generalizing acc with
  | nil => exact h
  | cons w ws ih => exact ih _ (pairwise_insertWord w acc h)

theorem buildVocab_pairwise (docs : List (List Word)) :
    List.Pairwise (fun a b => wordLt a b = true) (buildVocab docs) :=
  pairwise_foldl_insertWord _ [] List.Pairwise.nil

/-! ## General lemmas: term counting over a fixed vocabulary -/

theorem countRow_length (vocab doc : List Word) :
    (countRow vocab doc).length = vocab.length := by
  simp [countRow]

theorem tokensOf_filter (p : Word → Bool) (doc : List Word) :
    tokensOf (doc.filter p) = (tokensOf doc).filter p := by
  unfold tokensOf
  rw [List.filter_comm]

theorem countRow_filter_vocab (vocab doc : List Word) :
    countRow vocab (doc.filter (fun w => decide (w ∈ vocab))) = countRow vocab doc := by
  unfold countRow
  refine List.map_congr_left (fun t ht => ?_)
  rw [tokensOf_filter, List.countP_filter]
  refine List.countP_congr (fun w _ => ?_)
  by_cases hw : w = t
  · subst hw
    simp [ht]
  · simp [hw]

theorem countRow_append_oov (vocab doc extra : List Word)
    (h : ∀ w ∈ extra, w ∉ vocab) :
    countRow vocab (doc ++ extra) = countRow vocab doc := by
  unfold countRow
  refine List.map_congr_left (fun t ht => ?_)
  unfold tokensOf
  rw [List.filter_append, List.countP_append]
  have hz : ((extra.filter (fun w => decide (2 ≤ w.length))).countP
      (fun w => decide (w = t))) = 0 := by
    rw [List.countP_eq_zero]
    intro w hw
    have hmem : w ∈ extra := List.mem_of_mem_filter hw
    simp only [decide_eq_true_eq]
    intro heq
    exact h w hmem (heq ▸ ht)
  rw [hz, Nat.add_zero]

theorem simMatrix_oov_invariant (core : VSMCore) (vocab : List Word)
    (docs : List (List Word)) :
    simMatrix core vocab docs =
      docs.map (fun d =>
        (tfidfMatrixR core).map (fun trow =>
          cosineSim ((countRow vocab (d.filter (fun w => decide (w ∈ vocab)))).map
            (fun c : ℕ => (c : ℝ))) trow)) := by
  unfold simMatrix
  refine List.map_congr_left (fun d _ => ?_)
  rw [countRow_filter_vocab]

/-! ## Evaluation of the concrete instances -/

theorem sax_eval1 : discretizeSample sax0 [0, 1, 2, 3] = ['a', 'a', 'b', 'b'] := by
  have he : uniformEdges 2 [0, 1, 2, 3] = [3/2] := by
    simp only [uniformEdges, listMinQ, listMaxQ, List.foldl_cons, List.foldl_nil,
      show List.range (2 - 1) = [0] from rfl, List.map_cons, List.map_nil]
    norm_num [min_def, max_def]
  simp only [discretizeSample, sax0, reduceIte,
    show saxAlphabet ⟨2, "uniform", none⟩ = ['a', 'b'] from by decide,
    List.map_cons, List.map_nil, show Int.toNat 2 = 2 from rfl]
  rw [he]
  simp only [binCountQ, List.countP_cons, List.countP_nil]
  norm_num

theorem sax_eval2 : discretizeSample sax0 [3, 2, 1, 0] = ['b', 'b', 'a', 'a'] := by
  have he : uniformEdges 2 [3, 2, 1, 0] = [3/2] := by
    simp only [uniformEdges, listMinQ, listMaxQ, List.foldl_cons, List.foldl_nil,
      show List.range (2 - 1) = [0] from rfl, List.map_cons, List.map_nil]
    norm_num [min_def, max_def]
  simp only [discretizeSample, sax0, reduceIte,
    show saxAlphabet ⟨2, "uniform", none⟩ = ['a', 'b'] from by decide,
    List.map_cons, List.map_nil, show Int.toNat 2 = 2 from rfl]
  rw [he]
  simp only [binCountQ, List.countP_cons, List.countP_nil]
  norm_num

theorem sax_eval3 : discretizeSample sax0 [7] = ['b'] := by
  have he : uniformEdges 2 [7] = [7] := by
    simp only [uniformEdges, listMinQ, listMaxQ, List.foldl_nil,
      show List.range (2 - 1) = [0] from rfl, List.map_cons, List.map_nil]
    norm_num
  simp only [discretizeSample, sax0, reduceIte,
    show saxAlphabet ⟨2, "uniform", none⟩ = ['a', 'b'] from by decide,
    List.map_cons, List.map_nil, show Int.toNat 2 = 2 from rfl]
  rw [he]
  simp only [binCountQ, List.countP_cons, List.countP_nil]
  norm_num

theorem saxFT0 : SAXVSM.saxFitTransform inst0 X0 =
    .ok (sax0, [['a', 'a', 'b', 'b'], ['b', 'b', 'a', 'a']]) := by
  simp only [SAXVSM.saxFitTransform, inst0, SAXVSM.init, X0,
    List.map_cons, List.map_nil, reduceIte,
    show strategyValid "uniform" = true from rfl]
  rw [show (⟨2, "uniform", none⟩ : SaxFitted) = sax0 from rfl]
  rw [sax_eval1, sax_eval2]
  simp [sax0]

theorem fit0 : SAXVSM.fit inst0 X0 y0 = (.ok (), m0) := by
  simp only [SAXVSM.fit, saxFT0]
  decide

theorem fit1 : SAXVSM.fit inst0 X0 y1 = (.ok (), m1) := by
  simp only [SAXVSM.fit, saxFT0]
  decide

theorem saxT0 : saxTransform sax0 Xt = .ok [['b']] := by
  simp only [saxTransform, show strategyValid sax0.strategy = true from rfl, reduceIte,
    Xt, List.map_cons, List.map_nil, sax_eval3]

theorem df0 : SAXVSM.decision_function m0 Xt = .ok [[0, 0]] := by
  rw [SAXVSM.decision_function]
  rw [show SAXVSM.isFitted m0 = true from rfl, if_pos rfl]
  rw [show m0._sax = some sax0 from rfl, show m0._bow = some bow0 from rfl,
    show m0._tfidf = some vocab0 from rfl, show m0.tfidf_ = some core0 from rfl]
  simp only [saxT0]
  rw [show [['b']].map (bowTransformSample bow0) = [[]] from by decide]
  have hcnt : countRow vocab0 [] = [0, 0, 0, 0] := by decide
  have hmap : (countRow vocab0 []).map (fun c : ℕ => (c : ℝ)) = [0, 0, 0, 0] := by
    rw [hcnt]
    norm_num
  have hz : ∀ trow : List ℝ,
      cosineSim ((countRow vocab0 []).map (fun c : ℕ => (c : ℝ))) trow = 0 := by
    intro trow
    rw [hmap]
    refine cosineSim_zeroList _ trow ?_
    intro x hx
    rcases List.mem_cons.mp hx with h | hx
    · exact h
    rcases List.mem_cons.mp hx with h | hx
    · exact h
    rcases List.mem_cons.mp hx with h | hx
    · exact h
    rcases List.mem_cons.mp hx with h | hx
    · exact h
    · cases hx
  rw [simMatrix]
  simp only [List.map_cons, List.map_nil, hz]
  rw [List.map_const']
  rw [show (tfidfMatrixR core0).length = 2 from by
    simp [tfidfMatrixR, core0]]
  rfl

/-! ## Path analysis of `fit` -/

theorem check_params_eq (m : SAXVSM) :
    SAXVSM._check_params m =
      (if SAXVSM.nBinsValid m.n_bins then Except.ok () else .error .invalidParameter) := by
  unfold SAXVSM._check_params SAXVSM.nBinsValid
  cases hnb : m.n_bins with
  | int n =>
      simp only []
      by_cases h : 2 ≤ n ∧ n ≤ 26 <;> simp [h]
  | float q => simp

theorem cct_error_iff (y : List ℚ) :
    check_classification_targets y = .error .invalidTarget ↔ ∃ v ∈ y, v.den ≠ 1 := by
  unfold check_classification_targets
  by_cases h : y.all (fun v => decide (v.den = 1)) = true
  · rw [if_pos h]
    simp only [List.all_eq_true, decide_eq_true_eq] at h
    constructor
    · intro hc
      cases hc
    · rintro ⟨v, hv, hne⟩
      exact absurd (h v hv) hne
  · rw [if_neg h]
    simp only [List.all_eq_true, decide_eq_true_eq] at h
    push_neg at h
    simp only [true_iff]
    exact h

theorem cct_ok_of_not_error (y : List ℚ)
    (h : ¬∃ v ∈ y, v.den ≠ 1) : check_classification_targets y = .ok () := by
  unfold check_classification_targets
  rw [if_pos]
  simp only [List.all_eq_true, decide_eq_true_eq]
  push_neg at h
  intro v hv
  exact h v hv

theorem saxFitTransform_error (m : SAXVSM) (X : List (List ℚ)) (e : Err)
    (h : SAXVSM.saxFitTransform m X = .error e) : e = .invalidParameter := by
  unfold SAXVSM.saxFitTransform at h
  split at h
  · exact (Except.error.inj h).symm
  · split at h
    · split at h
      · simp at h
      · exact (Except.error.inj h).symm
    · exact (Except.error.inj h).symm

theorem saxFitTransform_invalid (m : SAXVSM) (X : List (List ℚ))
    (h : SAXVSM.nBinsValid m.n_bins = false ∨ strategyValid m.strategy = false) :
    SAXVSM.saxFitTransform m X = .error .invalidParameter := by
  unfold SAXVSM.saxFitTransform
  split
  · rfl
  · rename_i n hnb
    rw [hnb] at h
    unfold SAXVSM.nBinsValid at h
    simp only [] at h
    split
    · rename_i hrange
      rcases h with h | h
      · simp [hrange] at h
      · rw [if_neg (by rw [h]; exact Bool.false_ne_true)]
    · rfl

theorem saxFitTransform_valid (m : SAXVSM) (X : List (List ℚ))
    (h1 : SAXVSM.nBinsValid m.n_bins = true) (h2 : strategyValid m.strategy = true) :
    ∃ sf Xs, SAXVSM.saxFitTransform m X = .ok (sf, Xs) ∧ Xs = X.map (discretizeSample sf) := by
  unfold SAXVSM.saxFitTransform
  split
  · rename_i hnb
    rw [hnb] at h1
    unfold SAXVSM.nBinsValid at h1
    simp at h1
  · rename_i n hnb
    rw [hnb] at h1
    unfold SAXVSM.nBinsValid at h1
    simp only [decide_eq_true_eq] at h1
    rw [if_pos h1, if_pos h2]
    exact ⟨_, _, rfl, rfl⟩

theorem tfidfFit_error (a b c : Bool) (docs : List (List Word)) (e : Err)
    (h : tfidfFit a b c docs = .error e) : e = .emptyVocabulary := by
  simp only [tfidfFit] at h
  split at h
  · exact (Except.error.inj h).symm
  · simp at h

theorem tfidfFit_ok_inv (a b c : Bool) (docs : List (List Word)) (core : VSMCore)
    (h : tfidfFit a b c docs = .ok core) :
    core = ⟨buildVocab docs, docs.map (countRow (buildVocab docs)), a, b, c⟩ := by
  simp only [tfidfFit] at h
  split at h
  · simp at h
  · exact (Except.ok.inj h).symm

theorem fit_ok_fields (m m' : SAXVSM) (X : List (List ℚ)) (y : List ℚ)
    (h : SAXVSM.fit m X y = (.ok (), m')) :
    ∃ (core : VSMCore) (docs : List (List Word)),
      m'.tfidf_ = some core ∧
      m'.vocabulary_ = some core.vocab ∧
      m'._tfidf = some core.vocab ∧
      m'.idf_ = some (if m.use_idf then some core else none) ∧
      m'.classes_ = some (labelClasses y) ∧
      core.vocab = buildVocab docs ∧
      core.counts = docs.map (countRow core.vocab) ∧
      core.use_idf = m.use_idf ∧ core.smooth_idf = m.smooth_idf ∧
      core.sublinear_tf = m.sublinear_tf := by
  simp only [SAXVSM.fit] at h
  split at h
  · simp at h
  · split at h
    · simp at h
    · split at h
      · simp at h
      · split at h
        · simp at h
        · rename_i saxpair saxF Xsax hsax
          split at h
          · simp at h
          · rename_i core htf
            have hm := ((Prod.mk.injEq _ _ _ _).mp h).2
            have hcore := tfidfFit_ok_inv _ _ _ _ _ htf
            subst hm
            exact ⟨core, _, rfl, rfl, rfl, rfl, rfl, by rw [hcore], by rw [hcore],
              by rw [hcore], by rw [hcore], by rw [hcore]⟩

theorem fit_late_error (m : SAXVSM) (X : List (List ℚ)) (y : List ℚ) (e : Err)
    (hxy : check_X_y X y = .ok ()) (hcp : SAXVSM._check_params m = .ok ())
    (hct : check_classification_targets y = .ok ())
    (h : (SAXVSM.fit m X y).1 = .error e) :
    e = .invalidParameter ∨ e = .emptyVocabulary := by
  simp only [SAXVSM.fit, hxy, hcp, hct] at h
  split at h
  · rename_i e' hsax
    simp only [] at h
    cases Except.error.inj h
    exact Or.inl (saxFitTransform_error m X _ hsax)
  · split at h
    · rename_i e' htf
      simp only [] at h
      cases Except.error.inj h
      exact Or.inr (tfidfFit_error _ _ _ _ _ htf)
    · simp at h

theorem fit_late_error_strategyOk (m : SAXVSM) (X : List (List ℚ)) (y : List ℚ) (e : Err)
    (hxy : check_X_y X y = .ok ()) (hcp : SAXVSM._check_params m = .ok ())
    (hct : check_classification_targets y = .ok ())
    (hnb : SAXVSM.nBinsValid m.n_bins = true) (hs : strategyValid m.strategy = true)
    (h : (SAXVSM.fit m X y).1 = .error e) :
    e = .emptyVocabulary := by
  obtain ⟨sf, Xs, hsax, -⟩ := saxFitTransform_valid m X hnb hs
  simp only [SAXVSM.fit, hxy, hcp, hct, hsax] at h
  split at h
  · rename_i e' htf
    simp only [] at h
    cases Except.error.inj h
    exact tfidfFit_error _ _ _ _ _ htf
  · simp at h

/-! ## The claims -/

/-- C9.  `decision_function` and `predict` are side-effect-free reads: in the
state-passing embedding their post-state is exactly the receiver, so every
fitted attribute (`vocabulary_`, `tfidf_`, `idf_`, `classes_`, `_tfidf`,
`_sax`, `_bow`) is left unchanged. -/
theorem claim_C9 (m : SAXVSM) (X : List (List ℚ)) :
    (SAXVSM.decision_functionS m X).2 = m ∧ (SAXVSM.predictS m X).2 = m :=
  ⟨rfl, rfl⟩

/-- C10.  `fit` runs all validation (`check_X_y`, `_check_params`,
`check_classification_targets`, lines 116–118) before assigning any fitted
attribute: whenever one of the three validations rejects the input, `fit`
returns an error and the post-state instance is exactly the pre-state. -/
theorem claim_C10 (m : SAXVSM) (X : List (List ℚ)) (y : List ℚ)
    (h : ¬(check_X_y X y = .ok () ∧ SAXVSM._check_params m = .ok () ∧
          check_classification_targets y = .ok ())) :
    (∃ e, (SAXVSM.fit m X y).1 = .error e) ∧ (SAXVSM.fit m X y).2 = m := by
  cases hxy : check_X_y X y with
  | error e =>
      have hfit : SAXVSM.fit m X y = (.error e, m) := by
        simp only [SAXVSM.fit, hxy]
      rw [hfit]
      exact ⟨⟨e, rfl⟩, rfl⟩
  | ok u =>
      obtain rfl : u = () := rfl
      cases hcp : SAXVSM._check_params m with
      | error e =>
          have hfit : SAXVSM.fit m X y = (.error e, m) := by
            simp only [SAXVSM.fit, hxy, hcp]
          rw [hfit]
          exact ⟨⟨e, rfl⟩, rfl⟩
      | ok u =>
          obtain rfl : u = () := rfl
          cases hct : check_classification_targets y with
          | error e =>
              have hfit : SAXVSM.fit m X y = (.error e, m) := by
                simp only [SAXVSM.fit, hxy, hcp, hct]
              rw [hfit]
              exact ⟨⟨e, rfl⟩, rfl⟩
          | ok u =>
              obtain rfl : u = () := rfl
              exact absurd ⟨hxy, hcp, hct⟩ h

/-- C1 (amended).  Before `fit`, `decision_function` raises `NotFittedError`.
`predict` also fails, but because Python evaluates the subscripted primary
`self.classes_` before calling `decision_function`, an instance with no
`classes_` attribute raises `AttributeError`; when `classes_` is present but
another fitted attribute is missing, `predict` raises `NotFittedError`. -/
theorem claim_C1 (m : SAXVSM) (X : List (List ℚ)) (h : SAXVSM.isFitted m = false) :
    SAXVSM.decision_function m X = .error .notFitted ∧
    SAXVSM.predict m X =
      .error (if m.classes_.isSome then Err.notFitted else Err.attributeError) := by
  have hdf : SAXVSM.decision_function m X = .error .notFitted := by
    unfold SAXVSM.decision_function
    rw [if_neg (by rw [h]; exact Bool.false_ne_true)]
  refine ⟨hdf, ?_⟩
  unfold SAXVSM.predict
  cases hcls : m.classes_ with
  | none => simp
  | some cls => simp [hdf]

/-- C3 (amended).  `fit` fails with `InvalidTarget` exactly when the shape
and parameter checks pass and `y` is not a classification-type target, i.e.
contains a non-integral (continuous) label.  A label vector with fewer than
two distinct classes of integral labels is accepted (see the
counterexample). -/
theorem claim_C3 (m : SAXVSM) (X : List (List ℚ)) (y : List ℚ) :
    (SAXVSM.fit m X y).1 = .error .invalidTarget ↔
      (check_X_y X y = .ok () ∧ SAXVSM._check_params m = .ok () ∧
        ∃ v ∈ y, v.den ≠ 1) := by
  constructor
  · intro h
    cases hxy : check_X_y X y with
    | error e =>
        exfalso
        have hfit : SAXVSM.fit m X y = (.error e, m) := by
          simp only [SAXVSM.fit, hxy]
        rw [hfit] at h
        simp only [] at h
        cases Except.error.inj h
        unfold check_X_y at hxy
        split at hxy
        · cases hxy
        · simp at hxy
    | ok u =>
        obtain rfl : u = () := rfl
        cases hcp : SAXVSM._check_params m with
        | error e =>
            exfalso
            have hfit : SAXVSM.fit m X y = (.error e, m) := by
              simp only [SAXVSM.fit, hxy, hcp]
            rw [hfit] at h
            simp only [] at h
            cases Except.error.inj h
            rw [check_params_eq] at hcp
            split at hcp
            · cases hcp
            · simp at hcp
        | ok u =>
            obtain rfl : u = () := rfl
            cases hct : check_classification_targets y with
            | error e =>
                have hfit : SAXVSM.fit m X y = (.error e, m) := by
                  simp only [SAXVSM.fit, hxy, hcp, hct]
                rw [hfit] at h
                simp only [] at h
                cases Except.error.inj h
                exact ⟨rfl, rfl, (cct_error_iff y).mp hct⟩
            | ok u =>
                obtain rfl : u = () := rfl
                exfalso
                rcases fit_late_error m X y _ hxy hcp hct h with he | he <;> cases he
  · rintro ⟨hxy, hcp, hbad⟩
    have hct : check_classification_targets y = .error .invalidTarget :=
      (cct_error_iff y).mpr hbad
    have hfit : SAXVSM.fit m X y = (.error .invalidTarget, m) := by
      simp only [SAXVSM.fit, hxy, hcp, hct]
    rw [hfit]

/-- C2 (amended).  Given `X` and `y` that pass the shape check and the
classification-target check, `fit` raises `InvalidParameter` if and only if
`n_bins` is not an integer, lies outside `[2, 26]`, or `strategy` is not one
of the three valid names; the validation is lazy: construction with the same
(possibly invalid) configuration succeeds and yields an unfitted instance.
(When the earlier shape or target checks fail, their errors preempt
`InvalidParameter`; see the counterexample.) -/
theorem claim_C2 (m : SAXVSM) (X : List (List ℚ)) (y : List ℚ)
    (hXy : X.length = y.length) (hy : check_classification_targets y = .ok ()) :
    ((SAXVSM.fit m X y).1 = .error .invalidParameter ↔
      (SAXVSM.nBinsValid m.n_bins = false ∨ strategyValid m.strategy = false)) ∧
    SAXVSM.isFitted (SAXVSM.init m.n_bins m.strategy m.alphabet m.window_size
      m.window_step m.numerosity_reduction m.use_idf m.smooth_idf m.sublinear_tf) = false := by
  have hxy : check_X_y X y = .ok () := by
    unfold check_X_y
    rw [if_pos hXy]
  refine ⟨⟨?_, ?_⟩, rfl⟩
  · intro h
    by_cases hnb : SAXVSM.nBinsValid m.n_bins = true
    · by_cases hs : strategyValid m.strategy = true
      · exfalso
        have := fit_late_error_strategyOk m X y _ hxy
          (by rw [check_params_eq, if_pos hnb]) hy hnb hs h
        cases this
      · exact Or.inr (Bool.not_eq_true _ ▸ Bool.of_not_eq_true hs)
    · exact Or.inl (Bool.of_not_eq_true hnb)
  · intro h
    by_cases hnb : SAXVSM.nBinsValid m.n_bins = true
    · have hs : strategyValid m.strategy = false := by
        rcases h with h | h
        · rw [hnb] at h
          cases h
        · exact h
      have hcp : SAXVSM._check_params m = .ok () := by
        rw [check_params_eq, if_pos hnb]
      have hsax : SAXVSM.saxFitTransform m X = .error .invalidParameter :=
        saxFitTransform_invalid m X (Or.inr hs)
      have hfit : (SAXVSM.fit m X y) =
          (.error .invalidParameter, { m with classes_ := some (labelClasses y) }) := by
        simp only [SAXVSM.fit, hxy, hcp, hy, hsax]
      rw [hfit]
    · have hnb' : SAXVSM.nBinsValid m.n_bins = false := Bool.of_not_eq_true hnb
      have hcp : SAXVSM._check_params m = .error .invalidParameter := by
        rw [check_params_eq, if_neg (by rw [hnb']; exact Bool.false_ne_true)]
      have hfit : SAXVSM.fit m X y = (.error .invalidParameter, m) := by
        simp only [SAXVSM.fit, hxy, hcp]
      rw [hfit]

/-- C4.  `predict` returns, per sample, the class label at the index of the
first maximum of that sample's row of `decision_function` (the numpy
first-argmax convention): the selected index carries the row's maximum, and
every earlier index carries a strictly smaller value (ties are broken by the
lowest class index). -/
theorem claim_C4 (m : SAXVSM) (cls : List ℚ) (X : List (List ℚ)) (M : List (List ℝ))
    (hcls : m.classes_ = some cls) (h : SAXVSM.decision_function m X = .ok M) :
    SAXVSM.predict m X = .ok (M.map (fun row => cls.getD (firstArgmax row) 0)) ∧
    ∀ row ∈ M, row ≠ [] →
      firstArgmax row < row.length ∧
      (∀ k < row.length, row.getD k 0 ≤ row.getD (firstArgmax row) 0) ∧
      (∀ k < firstArgmax row, row.getD k 0 < row.getD (firstArgmax row) 0) := by
  constructor
  · simp only [SAXVSM.predict, hcls, h]
  · intro row hrow hne
    exact firstArgmax_spec row hne

/-- C6.  The similarity matrix of `decision_function` has one row per test
sample and one column per class (a row of the stored tf-idf matrix), and
every entry is a cosine similarity, hence lies in `[-1, 1]`. -/
theorem claim_C6 (m : SAXVSM) (X : List (List ℚ)) (M : List (List ℝ))
    (h : SAXVSM.decision_function m X = .ok M) :
    M.length = X.length ∧
    (∀ core, m.tfidf_ = some core → ∀ row ∈ M, row.length = core.counts.length) ∧
    (∀ row ∈ M, ∀ e ∈ row, -1 ≤ e ∧ e ≤ 1) := by
  unfold SAXVSM.decision_function at h
  split at h
  · split at h
    · rename_i saxF bowF vocab core hs hb ht hc
      split at h
      · simp at h
      · rename_i Xsax hst
        have hM := Except.ok.inj h
        subst hM
        have hXs : Xsax = X.map (discretizeSample saxF) := by
          unfold saxTransform at hst
          split at hst
          · exact (Except.ok.inj hst).symm
          · cases hst
        refine ⟨?_, ?_, ?_⟩
        · simp [simMatrix, hXs]
        · intro core' hcore' row hrow
          rw [hc] at hcore'
          cases Option.some.inj hcore'
          obtain ⟨doc, hdoc, rfl⟩ := List.mem_map.mp hrow
          simp [tfidfMatrixR]
        · intro row hrow e he
          obtain ⟨doc, hdoc, rfl⟩ := List.mem_map.mp hrow
          obtain ⟨trow, htrow, rfl⟩ := List.mem_map.mp he
          exact cosineSim_mem_Icc _ trow
    · simp at h
  · simp at h

/-- C7.  After a successful `fit`, the `idf_` attribute is present and holds
the learned idf vector — one weight per vocabulary term — exactly when
`use_idf` is set; with `use_idf=False` it holds Python's `None`. -/
theorem claim_C7 (m m' : SAXVSM) (X : List (List ℚ)) (y : List ℚ)
    (h : SAXVSM.fit m X y = (.ok (), m')) :
    ∃ core : VSMCore,
      m'.tfidf_ = some core ∧
      m'.idf_ = some (if m.use_idf then some core else none) ∧
      (m.use_idf = true → m'.idf_ = some (some core)) ∧
      (m.use_idf = false → m'.idf_ = some none) ∧
      (idfVecR core).length = core.vocab.length := by
  obtain ⟨core, docs, h1, h2, h3, h4, h5, h6, h7, h8, h9, h10⟩ :=
    fit_ok_fields m m' X y h
  refine ⟨core, h1, h4, ?_, ?_, ?_⟩
  · intro hu
    rw [h4, if_pos hu]
  · intro hu
    rw [h4, if_neg (by rw [hu]; exact Bool.false_ne_true)]
  · simp [idfVecR]

/-- C8.  `fit` is deterministic: two fits of the same configuration on the
same training data yield the same `vocabulary_` and the same tf-idf core,
hence the same real tf-idf matrix and idf vector; moreover the fitted
vocabulary is canonical — strictly sorted in the lexicographic word order
(as scikit-learn's vectorizers build it). -/
theorem claim_C8 (m m₁ m₂ : SAXVSM) (X : List (List ℚ)) (y : List ℚ)
    (h₁ : SAXVSM.fit m X y = (.ok (), m₁)) (h₂ : SAXVSM.fit m X y = (.ok (), m₂)) :
    m₁.vocabulary_ = m₂.vocabulary_ ∧ m₁.tfidf_ = m₂.tfidf_ ∧
    (∀ c₁ c₂, m₁.tfidf_ = some c₁ → m₂.tfidf_ = some c₂ →
      tfidfMatrixR c₁ = tfidfMatrixR c₂ ∧ idfVecR c₁ = idfVecR c₂) ∧
    (∀ v, m₁.vocabulary_ = some v →
      List.Pairwise (fun a b => wordLt a b = true) v) := by
  have hm : m₁ = m₂ := ((Prod.mk.injEq _ _ _ _).mp (h₁.symm.trans h₂)).2
  obtain ⟨core, docs, hc1, hv1, _, _, _, hvb, _, _, _, _⟩ :=
    fit_ok_fields m m₁ X y h₁
  subst hm
  refine ⟨rfl, rfl, ?_, ?_⟩
  · intro c₁ c₂ e₁ e₂
    rw [e₁] at e₂
    cases Option.some.inj e₂
    exact ⟨rfl, rfl⟩
  · intro v hv
    rw [hv1] at hv
    cases Option.some.inj hv
    rw [hvb]
    exact buildVocab_pairwise docs

/-- C5.  The inference-time counting step only counts fit-time vocabulary
terms: the count vector always has one entry per vocabulary term, dropping
the out-of-vocabulary words of a document (or appending any batch of them)
leaves its count vector unchanged, and the whole similarity matrix of
`decision_function` depends on each document only through its in-vocabulary
words — the vocabulary is never extended at inference time. -/
theorem claim_C5 (vocab doc extra : List Word) (hextra : ∀ w ∈ extra, w ∉ vocab) :
    (countRow vocab doc).length = vocab.length ∧
    countRow vocab (doc.filter (fun w => decide (w ∈ vocab))) = countRow vocab doc ∧
    countRow vocab (doc ++ extra) = countRow vocab doc ∧
    (∀ core docs, simMatrix core vocab docs =
      docs.map (fun d => (tfidfMatrixR core).map (fun trow =>
        cosineSim ((countRow vocab (d.filter (fun w => decide (w ∈ vocab)))).map
          (fun c : ℕ => (c : ℝ))) trow))) :=
  ⟨countRow_length vocab doc, countRow_filter_vocab vocab doc,
   countRow_append_oov vocab doc extra hextra,
   fun core docs => simMatrix_oov_invariant core vocab docs⟩

/-! ## Witnesses and counterexamples -/

/-- C1 witness: on the fresh instance `inst0`, `decision_function` raises
`NotFittedError` and `predict` raises `AttributeError` (its `classes_`
attribute is absent). -/
theorem claim_C1_witness :
    SAXVSM.decision_function inst0 [[0]] = .error .notFitted ∧
    SAXVSM.predict inst0 [[0]] =
      .error (if inst0.classes_.isSome then Err.notFitted else Err.attributeError) :=
  claim_C1 inst0 [[0]] rfl

/-- C1 counterexample to the claim as stated: on a never-fitted instance,
`predict` raises `AttributeError`, not `NotFittedError` — Python evaluates
`self.classes_` before `decision_function` is called (line 186). -/
theorem claim_C1_counterexample :
    SAXVSM.predict inst0 [[0]] = .error .attributeError ∧
    Err.attributeError ≠ Err.notFitted := by
  refine ⟨rfl, by decide⟩

/-- C2 witness: with `n_bins = 27` and shape-valid input, `fit` fails with
`InvalidParameter`, and construction yielded an unfitted instance. -/
theorem claim_C2_witness :
    (((SAXVSM.fit instBad27 [[0]] [5]).1 = .error .invalidParameter) ↔
      (SAXVSM.nBinsValid instBad27.n_bins = false ∨
        strategyValid instBad27.strategy = false)) ∧
    SAXVSM.isFitted (SAXVSM.init instBad27.n_bins instBad27.strategy
      instBad27.alphabet instBad27.window_size instBad27.window_step
      instBad27.numerosity_reduction instBad27.use_idf instBad27.smooth_idf
      instBad27.sublinear_tf) = false :=
  claim_C2 instBad27 [[0]] [5] rfl (by decide)

/-- C2 counterexample to the claim as stated: with the invalid `n_bins = 1`
but mismatched `X`/`y` lengths, `fit` raises the shape error, not
`InvalidParameter` — `check_X_y` (line 116) runs before `_check_params`
(line 117). -/
theorem claim_C2_counterexample :
    SAXVSM.nBinsValid instBad.n_bins = false ∧
    (SAXVSM.fit instBad [[0]] []).1 = .error .inconsistentShape ∧
    (SAXVSM.fit instBad [[0]] []).1 ≠ .error .invalidParameter := by
  refine ⟨by decide, rfl, ?_⟩
  rw [show (SAXVSM.fit instBad [[0]] []).1 = .error .inconsistentShape from rfl]
  decide

/-- C3 counterexample to the claim as stated: fitting on `y = [0, 0]` — two
samples, a single distinct class — succeeds; no `InvalidTarget` error is
raised for a degenerate label set. -/
theorem claim_C3_counterexample :
    (SAXVSM.fit inst0 X0 y1).1 = .ok () ∧ (labelClasses y1).length < 2 := by
  refine ⟨?_, by decide⟩
  rw [fit1]

/-- C4 witness: on the fitted `m0` and the one-sample input `Xt`, `predict`
returns the label at the first argmax of the similarity row `[0, 0]`, and
that argmax index is in range. -/
theorem claim_C4_witness :
    SAXVSM.predict m0 Xt =
      .ok ([[(0 : ℝ), 0]].map (fun row => ([0, 1] : List ℚ).getD (firstArgmax row) 0)) ∧
    firstArgmax [(0 : ℝ), 0] < 2 := by
  have h := claim_C4 m0 [0, 1] Xt [[0, 0]] rfl df0
  refine ⟨h.1, ?_⟩
  have h2 := (h.2 [0, 0] (List.mem_singleton.mpr rfl) (by simp)).1
  simpa using h2

/-- C5 witness: concrete counting over the one-word vocabulary `["ab"]`:
appending the out-of-vocabulary word `"zz"` changes nothing. -/
theorem claim_C5_witness :
    (countRow [['a', 'b']] [['a', 'b']]).length = [['a', 'b']].length ∧
    countRow [['a', 'b']]
      ([['a', 'b']].filter (fun w => decide (w ∈ [['a', 'b']]))) =
      countRow [['a', 'b']] [['a', 'b']] ∧
    countRow [['a', 'b']] ([['a', 'b']] ++ [['z', 'z']]) =
      countRow [['a', 'b']] [['a', 'b']] ∧
    simMatrix core0 [['a', 'b']] [[]] =
      [[]].map (fun d => (tfidfMatrixR core0).map (fun trow =>
        cosineSim ((countRow [['a', 'b']]
          (d.filter (fun w => decide (w ∈ [['a', 'b']])))).map
            (fun c : ℕ => (c : ℝ))) trow)) := by
  have h := claim_C5 [['a', 'b']] [['a', 'b']] [['z', 'z']] (by decide)
  exact ⟨h.1, h.2.1, h.2.2.1, h.2.2.2 core0 [[]]⟩

/-- C6 witness: on the fitted `m0` and input `Xt`, the similarity matrix is
`1 × 2` (one sample, two classes) and its entry lies in `[-1, 1]`. -/
theorem claim_C6_witness :
    [[(0 : ℝ), 0]].length = Xt.length ∧ (-1 ≤ (0 : ℝ) ∧ (0 : ℝ) ≤ 1) := by
  have h := claim_C6 m0 Xt [[0, 0]] df0
  exact ⟨h.1, h.2.2 [0, 0] (List.mem_singleton.mpr rfl) 0 (List.mem_cons_self _ _)⟩

/-- C7 witness: `inst0` has `use_idf = true`, and after its fit the `idf_`
attribute holds the idf payload, of one weight per vocabulary term. -/
theorem claim_C7_witness :
    m0.tfidf_ = some core0 ∧ m0.idf_ = some (some core0) ∧
    (idfVecR core0).length = core0.vocab.length := by
  obtain ⟨core, h1, h2, h3, h4, h5⟩ := claim_C7 inst0 m0 X0 y0 fit0
  cases Option.some.inj (h1.symm.trans rfl)
  exact ⟨h1, h3 rfl, h5⟩

/-- C8 witness: the fitted vocabulary of `m0` is strictly sorted in the
lexicographic word order. -/
theorem claim_C8_witness :
    m0.vocabulary_ = m0.vocabulary_ ∧
    List.Pairwise (fun a b => wordLt a b = true) vocab0 := by
  have h := claim_C8 inst0 m0 m0 X0 y0 fit0 fit0
  exact ⟨h.1, h.2.2.2 vocab0 rfl⟩

/-- C10 witness: `fit` on `instBad` (`n_bins = 1`) fails during validation
and leaves the instance exactly as it was. -/
theorem claim_C10_witness :
    (SAXVSM.fit instBad [[0]] [0]).2 = instBad :=
  (claim_C10 instBad [[0]] [0] (by decide)).2
